import Mathlib

/-!
Verification of the godel `MeshImporter` boundary-extraction pipeline
(`godel_process_path_generation/src/mesh_importer.cpp`).

The C++ code is shallowly embedded: Eigen `Vector3d` becomes `Vec3` over `ℝ`,
`Eigen::Hyperplane<double,3>` becomes `Hyperplane`, the affine `plane_frame_`
becomes `Frame` (three rotation columns plus a translation), and the stateful
method `calculateBoundaryData` becomes a function from the importer's fields
and the input mesh to the new fields plus an outcome.  The PCL RANSAC
segmentation and the half-edge boundary extraction are external libraries;
their outputs (`SegResult`, the boundary loops of `Oracle`) are passed in as
explicit inputs, and the code's deterministic use of those outputs is modelled
faithfully.  A `ROS_ASSERT` failure or an out-of-range `.at` access aborts the
process; both are modelled by the `crash` outcome, distinct from the `err`
outcome that models `return false`.
-/

noncomputable section

/-- A 3D vector over the reals, embedding Eigen `Vector3d`. -/
@[ext] structure Vec3 where
  x : ℝ
  y : ℝ
  z : ℝ

namespace Vec3

def add (a b : Vec3) : Vec3 := ⟨a.x + b.x, a.y + b.y, a.z + b.z⟩

def sub (a b : Vec3) : Vec3 := ⟨a.x - b.x, a.y - b.y, a.z - b.z⟩

def neg (a : Vec3) : Vec3 := ⟨-a.x, -a.y, -a.z⟩

def smul (r : ℝ) (a : Vec3) : Vec3 := ⟨r * a.x, r * a.y, r * a.z⟩

instance : Add Vec3 := ⟨add⟩

instance : Sub Vec3 := ⟨sub⟩

instance : Neg Vec3 := ⟨neg⟩

instance : SMul ℝ Vec3 := ⟨smul⟩

@[simp] theorem add_x (a b : Vec3) : (a + b).x = a.x + b.x := rfl

@[simp] theorem add_y (a b : Vec3) : (a + b).y = a.y + b.y := rfl

@[simp] theorem add_z (a b : Vec3) : (a + b).z = a.z + b.z := rfl

@[simp] theorem sub_x (a b : Vec3) : (a - b).x = a.x - b.x := rfl

@[simp] theorem sub_y (a b : Vec3) : (a - b).y = a.y - b.y := rfl

@[simp] theorem sub_z (a b : Vec3) : (a - b).z = a.z - b.z := rfl

@[simp] theorem neg_x (a : Vec3) : (-a).x = -a.x := rfl

@[simp] theorem neg_y (a : Vec3) : (-a).y = -a.y := rfl

@[simp] theorem neg_z (a : Vec3) : (-a).z = -a.z := rfl

@[simp] theorem smul_x (r : ℝ) (a : Vec3) : (r • a).x = r * a.x := rfl

@[simp] theorem smul_y (r : ℝ) (a : Vec3) : (r • a).y = r * a.y := rfl

@[simp] theorem smul_z (r : ℝ) (a : Vec3) : (r • a).z = r * a.z := rfl

@[simp] theorem mk_x (a b c : ℝ) : (Vec3.mk a b c).x = a := rfl

@[simp] theorem mk_y (a b c : ℝ) : (Vec3.mk a b c).y = b := rfl

@[simp] theorem mk_z (a b c : ℝ) : (Vec3.mk a b c).z = c := rfl

/-- Eigen `a.dot(b)`. -/
def dot (a b : Vec3) : ℝ := a.x * b.x + a.y * b.y + a.z * b.z

/-- Eigen `a.cross(b)`. -/
def cross (a b : Vec3) : Vec3 :=
  ⟨a.y * b.z - a.z * b.y, a.z * b.x - a.x * b.z, a.x * b.y - a.y * b.x⟩

/-- Eigen `v.norm()`. -/
def norm (v : Vec3) : ℝ := Real.sqrt (v.dot v)

/-- Eigen `v.normalized()` (`v / v.norm()`). -/
def normalized (v : Vec3) : Vec3 := (1 / v.norm) • v

theorem dot_nonneg_self (v : Vec3) : 0 ≤ v.dot v := by
  simp only [dot]; nlinarith [sq_nonneg v.x, sq_nonneg v.y, sq_nonneg v.z]

theorem norm_nonneg (v : Vec3) : 0 ≤ v.norm := Real.sqrt_nonneg _

theorem norm_smul (r : ℝ) (v : Vec3) : (r • v).norm = |r| * v.norm := by
  simp only [norm, dot, smul_x, smul_y, smul_z]
  rw [show r * v.x * (r * v.x) + r * v.y * (r * v.y) + r * v.z * (r * v.z)
        = r ^ 2 * (v.x * v.x + v.y * v.y + v.z * v.z) by ring]
  rw [Real.sqrt_mul (sq_nonneg r), Real.sqrt_sq_eq_abs]

end Vec3

/-- Unit world X axis, `Eigen::Vector3d::UnitX()`. -/
def unitX : Vec3 := ⟨1, 0, 0⟩

/-- Unit world Y axis, `Eigen::Vector3d::UnitY()`. -/
def unitY : Vec3 := ⟨0, 1, 0⟩

/-- Embeds `Eigen::Hyperplane<double,3>` through its `coeffs()` vector:
normal part `n` (`coeffs().head(3)`) and offset `d` (`coeffs()(3)`). -/
structure Hyperplane where
  n : Vec3
  d : ℝ

namespace Hyperplane

/-- Eigen `signedDistance(p) = normal().dot(p) + offset()`. -/
def signedDist (pl : Hyperplane) (p : Vec3) : ℝ := pl.n.dot p + pl.d

/-- Eigen `projection(p) = p - signedDistance(p) * normal()`. -/
def projection (pl : Hyperplane) (p : Vec3) : Vec3 := p - pl.signedDist p • pl.n

end Hyperplane

/-- Embeds the `Eigen::Affine3d plane_frame_`: the three columns of its linear
(rotation) part and its translation. -/
structure Frame where
  c0 : Vec3
  c1 : Vec3
  c2 : Vec3
  t : Vec3

/-- `plane_frame_.setIdentity()`. -/
def idFrame : Frame := ⟨⟨1, 0, 0⟩, ⟨0, 1, 0⟩, ⟨0, 0, 1⟩, ⟨0, 0, 0⟩⟩

/-- Applying the affine frame to a vector: `plane_frame_ * v`. -/
def applyFrame (F : Frame) (v : Vec3) : Vec3 :=
  v.x • F.c0 + v.y • F.c1 + v.z • F.c2 + F.t

/-- Determinant of the 3x3 matrix with columns `u`, `v`, `w`. -/
def det3 (u v w : Vec3) : ℝ :=
  u.x * (v.y * w.z - v.z * w.y) - v.x * (u.y * w.z - u.z * w.y)
    + w.x * (u.y * v.z - u.z * v.y)

/-- Applying `plane_frame_.inverse()` to a point.  Eigen inverts the affine
transform exactly (linear-part inverse, then translate); this embedding uses
the equivalent Cramer form, `applyFrame_applyFrameInv` below being its
specification when the linear part is invertible. -/
def applyFrameInv (F : Frame) (p : Vec3) : Vec3 :=
  let q := p - F.t
  let D := det3 F.c0 F.c1 F.c2
  ⟨det3 q F.c1 F.c2 / D, det3 F.c0 q F.c2 / D, det3 F.c0 F.c1 q / D⟩

theorem applyFrame_applyFrameInv (F : Frame) (p : Vec3)
    (hD : det3 F.c0 F.c1 F.c2 ≠ 0) : applyFrame F (applyFrameInv F p) = p := by
  ext <;>
    simp only [applyFrame, applyFrameInv, Vec3.add_x, Vec3.add_y, Vec3.add_z,
      Vec3.smul_x, Vec3.smul_y, Vec3.smul_z, Vec3.mk_x, Vec3.mk_y, Vec3.mk_z] <;>
    rw [div_mul_eq_mul_div, div_mul_eq_mul_div, div_mul_eq_mul_div,
      div_add_div_same, div_add_div_same, ← eq_sub_iff_add_eq, div_eq_iff hD] <;>
    simp only [det3, Vec3.sub_x, Vec3.sub_y, Vec3.sub_z] <;>
    ring

/-- `MeshImporter::computeLocalPlaneFrame` (mesh_importer.cpp lines 128-150),
translated line by line.  Note the source takes `plane.projection(origin +
UnitX)` itself — a point on the plane, not a direction — as the axis it
normalizes into column 0 (resp. column 1 in the other branch). -/
def computeLocalPlaneFrame (plane : Hyperplane) (centroid : Vec3) : Frame :=
  let origin := plane.projection centroid
  let plane_normal := plane.n
  if |plane_normal.dot unitX| < 0.8 then
    let x_axis := plane.projection (origin + unitX)
    { c0 := x_axis.normalized
      c2 := plane_normal.normalized
      c1 := ((plane_normal.normalized).cross x_axis.normalized).normalized
      t := origin }
  else
    let y_axis := plane.projection (origin + unitY)
    { c1 := y_axis.normalized
      c2 := plane_normal.normalized
      c0 := ((y_axis.normalized).cross plane_normal.normalized).normalized
      t := origin }

/-- The distinct `return false` branches of the source (each with its own
diagnostic message). -/
inductive Failure where
  | insufficientFit
  | normalMismatch
  | nonTriangularFace
deriving DecidableEq

/-- Process-fatal events: an out-of-range `.at` access (uncaught
`std::out_of_range`) or a failed `ROS_ASSERT` (abort). -/
inductive CrashKind where
  | outOfRange
  | assertFailed
deriving DecidableEq

/-- Outcome of a fallible stage: `ok` models normal completion (`return
true` / a produced value), `err` models a `return false` branch, `crash`
models process death. -/
inductive Res (α : Type) where
  | ok (a : α)
  | err (e : Failure)
  | crash (k : CrashKind)

/-- A point of the input cloud: position plus the per-vertex normal
(`normal_x/y/z`) used as the RANSAC seed axis. -/
structure MeshPoint where
  pos : Vec3
  nrm : Vec3

/-- The output of `seg.segment(*inliers, coefficients)` — the PCL RANSAC
sampler is an external library, so its result is an explicit input: the
number of inliers it reports and the plane coefficients it fits. -/
structure SegResult where
  inliers : ℕ
  n : Vec3
  d : ℝ

/-- Lines 182-186: flip the fitted normal when it disagrees with the seed. -/
def correctedNormal (seed nraw : Vec3) : Vec3 :=
  if nraw.dot seed < 0 then -nraw else nraw

/-- `MeshImporter::computePlaneCoefficients` (lines 152-198).  An empty cloud
crashes at `cloud->points.at(0)` before anything else runs.  The inlier test
divides the reported inlier count by `height * width`, the total number of
cloud points.  Note the source keeps `coefficients.values.at(3)` as the
offset even when the normal is flipped. -/
def computePlaneCoefficients (cloud : List MeshPoint) (seg : SegResult) :
    Res Hyperplane :=
  match cloud with
  | [] => .crash .outOfRange
  | p0 :: _ =>
    if (seg.inliers : ℝ) / (cloud.length : ℝ) < 0.9 then
      .err .insufficientFit
    else
      let actual := correctedNormal p0.nrm seg.n
      if actual.dot p0.nrm < Real.cos 0.5 then .err .normalMismatch
      else .ok ⟨actual, seg.d⟩

/-- `pcl::compute3DCentroid`: the arithmetic mean of the cloud points. -/
def centroidOf (cloud : List MeshPoint) : Vec3 :=
  (1 / (cloud.length : ℝ)) •
    cloud.foldr (fun p acc => p.pos + acc) ⟨0, 0, 0⟩

/-- Forward lookup of the `boost::bimap` (`mesh_index_map.left`): cloud
index to topological vertex handle. -/
def lookupIdx : List (ℕ × ℕ) → ℕ → Option ℕ
  | [], _ => none
  | (k, v) :: rest, i => if i = k then some v else lookupIdx rest i

/-- Reverse lookup of the bimap (`mesh_index_map.right`): vertex handle to
cloud index. -/
def rlookup : List (ℕ × ℕ) → ℕ → Option ℕ
  | [], _ => none
  | (k, v) :: rest, h => if h = v then some k else rlookup rest h

/-- Lines 93-96: if the cloud index is not yet mapped, create a fresh vertex
(`mesh.addVertex()` hands out consecutive handles) and record the pair. -/
def registerIndex (m : List (ℕ × ℕ)) (i : ℕ) : List (ℕ × ℕ) :=
  if (lookupIdx m i).isSome then m else m ++ [(i, m.length)]

/-- The inner loop of lines 90-98 over one face's indices: register each
index, then resolve it (`vi.push_back(mesh_index_map.left.at(*vidx))`).
Returns the grown map and the resolved handles in order. -/
def resolveList : List ℕ → List (ℕ × ℕ) → List (ℕ × ℕ) × List ℕ
  | [], m => (m, [])
  | i :: rest, m =>
    let m' := registerIndex m i
    let r := (lookupIdx m' i).getD 0
    let p := resolveList rest m'
    (p.1, r :: p.2)

/-- The face loop of lines 81-100: reject any face without exactly 3 vertex
references, otherwise register/resolve its indices and add the face.
Returns the final bimap and the faces as resolved handle triples. -/
def buildTopology : List (List ℕ) → List (ℕ × ℕ) →
    Res (List (ℕ × ℕ) × List (List ℕ))
  | [], m => .ok (m, [])
  | f :: fs, m =>
    if f.length = 3 then
      let p := resolveList f m
      match buildTopology fs p.1 with
      | .ok (mf, faces) => .ok (mf, p.2 :: faces)
      | .err e => .err e
      | .crash k => .crash k
    else .err .nonTriangularFace

/-- `list.at(i)`-style access: `some` in range, `none` (throw) otherwise. -/
def nth {α : Type} : List α → ℕ → Option α
  | [], _ => none
  | a :: _, 0 => some a
  | _ :: as, i + 1 => nth as i

/-- Lines 115-119 for one boundary vertex: resolve the half-edge's
originating vertex handle back to a cloud point (both `.at` calls throw when
missing), project it onto the plane, express it in the plane frame, assert
the out-of-plane residual is below 0.001, and emit the local (x, y) pair. -/
def projectVertex (plane : Hyperplane) (F : Frame) (cloud : List MeshPoint)
    (m : List (ℕ × ℕ)) (h : ℕ) : Except CrashKind (ℝ × ℝ) :=
  match rlookup m h with
  | none => .error .outOfRange
  | some idx =>
    match nth cloud idx with
    | none => .error .outOfRange
    | some pt =>
      let v := applyFrameInv F (plane.projection pt.pos)
      if |v.z| < 0.001 then .ok (v.x, v.y) else .error .assertFailed

/-- The inner loop of lines 112-120: project every vertex of one boundary
loop in order.  This region of the source has no `return false` path — only
the assert or a thrown exception can stop it. -/
def projectLoop (plane : Hyperplane) (F : Frame) (cloud : List MeshPoint)
    (m : List (ℕ × ℕ)) : List ℕ → Except CrashKind (List (ℝ × ℝ))
  | [] => .ok []
  | h :: rest =>
    match projectVertex plane F cloud m h with
    | .error k => .error k
    | .ok xy =>
      match projectLoop plane F cloud m rest with
      | .error k => .error k
      | .ok xs => .ok (xy :: xs)

/-- The outer loop of lines 108-123: completed loops are pushed onto
`boundaries_` one by one; a crash keeps the loops accumulated so far. -/
def runLoops (plane : Hyperplane) (F : Frame) (cloud : List MeshPoint)
    (m : List (ℕ × ℕ)) : List (List ℕ) → List (List (ℝ × ℝ)) →
    List (List (ℝ × ℝ)) × Option CrashKind
  | [], acc => (acc, none)
  | l :: ls, acc =>
    match projectLoop plane F cloud m l with
    | .error k => (acc, some k)
    | .ok pb => runLoops plane F cloud m ls (acc ++ [pb])

/-- The `pcl::PolygonMesh` input: its flattened vertex cloud and its face
list (each face a vector of cloud indices). -/
structure MeshInput where
  cloud : List MeshPoint
  polygons : List (List ℕ)

/-- Results of the two external library calls made by
`calculateBoundaryData`: the RANSAC segmentation output and the boundary
half-edge loops reported by `getBoundBoundaryHalfEdges`, the latter given as
each half-edge's originating topological vertex handle. -/
structure Oracle where
  seg : SegResult
  loops : List (List ℕ)

/-- The `MeshImporter` fields written by `calculateBoundaryData`. -/
structure ImporterState where
  frame : Frame
  boundaries : List (List (ℝ × ℝ))

/-- `MeshImporter::calculateBoundaryData` (lines 43-126) as a function from
the importer's previous fields, the input mesh, and the external-library
outputs to the new fields plus the call's outcome.  The previous fields are
never read: lines 47-48 reset the frame to the identity and clear the
boundary list before anything else. -/
def calculateBoundaryData (pre : ImporterState) (input : MeshInput)
    (o : Oracle) : ImporterState × Res Unit :=
  let s0 : ImporterState := ⟨idFrame, []⟩
  match computePlaneCoefficients input.cloud o.seg with
  | .crash k => (s0, .crash k)
  | .err e => (s0, .err e)
  | .ok hplane =>
    let frame := computeLocalPlaneFrame hplane (centroidOf input.cloud)
    let s1 : ImporterState := ⟨frame, []⟩
    match buildTopology input.polygons [] with
    | .crash k => (s1, .crash k)
    | .err e => (s1, .err e)
    | .ok (m, _faces) =>
      let r := runLoops hplane frame input.cloud m o.loops []
      match r.2 with
      | some k => (⟨frame, r.1⟩, .crash k)
      | none => (⟨frame, r.1⟩, .ok ())

/-! ### A concrete run on the plane `z = 1`

Four points on the plane `z = 1` (normals `(0,0,1)`), a single triangle over
the first three, and the segmentation oracle reporting the exact plane
`n = (0,0,1)`, `d = -1` with all four points as inliers.  Because the plane
does not pass through the world origin, `computeLocalPlaneFrame` builds a
frame whose first column is not perpendicular to the normal. -/

/-- The fitted plane `z = 1`: normal `(0,0,1)`, offset `-1`. -/
def planeW : Hyperplane := ⟨⟨0, 0, 1⟩, -1⟩

/-- Four points on the plane `z = 1`, each carrying normal `(0,0,1)`. -/
def cloudW : List MeshPoint :=
  [⟨⟨1, 0, 1⟩, ⟨0, 0, 1⟩⟩, ⟨⟨-1, 0, 1⟩, ⟨0, 0, 1⟩⟩,
   ⟨⟨0, 1, 1⟩, ⟨0, 0, 1⟩⟩, ⟨⟨0, -1, 1⟩, ⟨0, 0, 1⟩⟩]

/-- Segmentation output: 4 inliers, plane coefficients `(0,0,1,-1)`. -/
def segW : SegResult := ⟨4, ⟨0, 0, 1⟩, -1⟩

/-- The frame `computeLocalPlaneFrame` produces for `planeW` with centroid
`(0,0,1)`: column 0 is the normalized plane POINT `(1,0,1)`, which is not
perpendicular to column 2. -/
def frameW : Frame :=
  ⟨⟨(Real.sqrt 2)⁻¹, 0, (Real.sqrt 2)⁻¹⟩, ⟨0, 1, 0⟩, ⟨0, 0, 1⟩, ⟨0, 0, 1⟩⟩

/-- The bimap built from the single face `[0,1,2]`. -/
def mapW : List (ℕ × ℕ) := [(0, 0), (1, 1), (2, 2)]

/-- Input mesh: the four points with one triangle over indices 0,1,2. -/
def inputW : MeshInput := ⟨cloudW, [[0, 1, 2]]⟩

/-- Oracle: the exact segmentation and the triangle's boundary loop. -/
def oracleW : Oracle := ⟨segW, [[0, 1, 2]]⟩

/-- An arbitrary pre-call state. -/
def preW : ImporterState := ⟨idFrame, []⟩

/-- A pre-call state with a non-empty boundary list, to observe the entry
reset of lines 47-48. -/
def pre0 : ImporterState := ⟨idFrame, [[(0, 0)]]⟩

/-- A single cloud point at the origin with normal `(0,0,1)`. -/
def mp0 : MeshPoint := ⟨⟨0, 0, 0⟩, ⟨0, 0, 1⟩⟩

/-- A segmentation output reporting zero inliers. -/
def seg0 : SegResult := ⟨0, ⟨0, 0, 1⟩, 0⟩

/-- Concatenation of all faces' index lists, in face order. -/
def flat : List (List ℕ) → List ℕ
  | [] => []
  | f :: fs => f ++ flat fs

/-- Invariant of the index bimap: the cloud indices (left keys) are
pairwise distinct and the vertex handles (right keys) are exactly
`0, 1, …, n-1` in creation order. -/
def goodMap (m : List (ℕ × ℕ)) : Prop :=
  (m.map Prod.fst).Nodup ∧ m.map Prod.snd = List.range m.length

theorem sqrt2_ne : Real.sqrt 2 ≠ 0 := by
  have := Real.sqrt_pos.mpr (by norm_num : (0:ℝ) < 2)
  linarith

theorem cpcW : computePlaneCoefficients cloudW segW = .ok planeW := by
  have h3 : ¬ ((1:ℝ) < Real.cos (1 / 2)) := by
    nlinarith [Real.cos_le_one (1 / 2 : ℝ)]
  simp only [computePlaneCoefficients, cloudW, segW, correctedNormal, planeW]
  norm_num [Vec3.dot, h3]

theorem centroidW : centroidOf cloudW = ⟨0, 0, 1⟩ := by
  ext <;> simp [centroidOf, cloudW] <;> norm_num

theorem projW_centroid : planeW.projection ⟨0, 0, 1⟩ = ⟨0, 0, 1⟩ := by
  ext <;> simp [Hyperplane.projection, Hyperplane.signedDist, planeW, Vec3.dot]

theorem projW_x : planeW.projection ⟨1, 0, 1⟩ = ⟨1, 0, 1⟩ := by
  ext <;> simp [Hyperplane.projection, Hyperplane.signedDist, planeW, Vec3.dot]

theorem norm_001 : (Vec3.mk 0 0 1).norm = 1 := by
  simp [Vec3.norm, Vec3.dot]

theorem normalized_001 : (Vec3.mk 0 0 1).normalized = ⟨0, 0, 1⟩ := by
  ext <;> simp [Vec3.normalized, norm_001]

theorem norm_101 : (Vec3.mk 1 0 1).norm = Real.sqrt 2 := by
  simp [Vec3.norm, Vec3.dot]
  norm_num

theorem normalized_101 :
    (Vec3.mk 1 0 1).normalized = ⟨(Real.sqrt 2)⁻¹, 0, (Real.sqrt 2)⁻¹⟩ := by
  ext <;> simp [Vec3.normalized, norm_101, one_div]

theorem crossW :
    (Vec3.mk 0 0 1).cross ⟨(Real.sqrt 2)⁻¹, 0, (Real.sqrt 2)⁻¹⟩
      = ⟨0, (Real.sqrt 2)⁻¹, 0⟩ := by
  ext <;> simp [Vec3.cross]

theorem norm_crossW : (Vec3.mk 0 ((Real.sqrt 2)⁻¹) 0).norm = (Real.sqrt 2)⁻¹ := by
  simp only [Vec3.norm, Vec3.dot, Vec3.mk_x, Vec3.mk_y, Vec3.mk_z]
  rw [show (0:ℝ) * 0 + (Real.sqrt 2)⁻¹ * (Real.sqrt 2)⁻¹ + 0 * 0
        = (Real.sqrt 2)⁻¹ * (Real.sqrt 2)⁻¹ by ring]
  exact Real.sqrt_mul_self (by positivity)

theorem normalized_crossW :
    (Vec3.mk 0 ((Real.sqrt 2)⁻¹) 0).normalized = ⟨0, 1, 0⟩ := by
  ext <;> simp [Vec3.normalized, norm_crossW, one_div, inv_inv] <;>
    exact mul_inv_cancel₀ sqrt2_ne

theorem frameW_eq : computeLocalPlaneFrame planeW ⟨0, 0, 1⟩ = frameW := by
  have hcond : |Vec3.dot ⟨0, 0, 1⟩ unitX| < 0.8 := by
    simp [unitX, Vec3.dot]; norm_num
  have hadd : (Vec3.mk 0 0 1) + unitX = ⟨1, 0, 1⟩ := by
    ext <;> simp [unitX]
  have hn : planeW.n = ⟨0, 0, 1⟩ := rfl
  simp only [computeLocalPlaneFrame, projW_centroid, hadd, projW_x,
    normalized_101, hn, normalized_001, crossW, normalized_crossW, frameW]
  rw [if_pos hcond]

theorem invW_z : (applyFrameInv frameW ⟨1, 0, 1⟩).z = -1 := by
  have h : (Real.sqrt 2)⁻¹ ≠ 0 := inv_ne_zero sqrt2_ne
  simp only [applyFrameInv, det3, frameW, Vec3.sub_x, Vec3.sub_y, Vec3.sub_z,
    Vec3.mk_x, Vec3.mk_y, Vec3.mk_z]
  norm_num

theorem pvW : projectVertex planeW frameW cloudW mapW 0 = .error .assertFailed := by
  have hpt : (MeshPoint.mk ⟨1, 0, 1⟩ ⟨0, 0, 1⟩).pos = ⟨1, 0, 1⟩ := rfl
  have hnth : nth cloudW 0 = some ⟨⟨1, 0, 1⟩, ⟨0, 0, 1⟩⟩ := rfl
  norm_num [projectVertex, mapW, rlookup, hnth, hpt, projW_x, invW_z]

theorem btW : buildTopology [[0, 1, 2]] [] = .ok (mapW, [[0, 1, 2]]) := rfl

theorem crashRunW :
    calculateBoundaryData preW inputW oracleW = (⟨frameW, []⟩, .crash .assertFailed) := by
  simp only [calculateBoundaryData, inputW, oracleW, cpcW, centroidW, frameW_eq,
    btW, runLoops, projectLoop, pvW]

theorem okRunW :
    calculateBoundaryData preW ⟨cloudW, []⟩ ⟨segW, []⟩ = (⟨frameW, []⟩, .ok ()) := by
  simp only [calculateBoundaryData, cpcW, centroidW, frameW_eq, buildTopology, runLoops]

/-! ### Properties of the index bimap -/

theorem lookupIdx_eq_none {m : List (ℕ × ℕ)} {i : ℕ} :
    lookupIdx m i = none ↔ i ∉ m.map Prod.fst := by
  induction m with
  | nil => simp [lookupIdx]
  | cons kv rest ih =>
    obtain ⟨k, v⟩ := kv
    by_cases h : i = k <;> simp [lookupIdx, h, ih]

theorem lookupIdx_isSome {m : List (ℕ × ℕ)} {i : ℕ} :
    (lookupIdx m i).isSome ↔ i ∈ m.map Prod.fst := by
  rcases hl : lookupIdx m i with _ | v
  · simp [lookupIdx_eq_none.mp hl]
  · have : ¬ lookupIdx m i = none := by simp [hl]
    simpa using fun hmem => this (lookupIdx_eq_none.mpr hmem)

theorem lookupIdx_append_left {m m' : List (ℕ × ℕ)} {i v : ℕ}
    (h : lookupIdx m i = some v) : lookupIdx (m ++ m') i = some v := by
  induction m with
  | nil => simp [lookupIdx] at h
  | cons kv rest ih =>
    obtain ⟨k, w⟩ := kv
    by_cases hik : i = k
    · simpa [lookupIdx, hik] using by simpa [lookupIdx, hik] using h
    · simp only [lookupIdx, if_neg hik, List.cons_append] at h ⊢
      exact ih h

theorem lookupIdx_append_none {m m' : List (ℕ × ℕ)} {i : ℕ}
    (h : lookupIdx m i = none) : lookupIdx (m ++ m') i = lookupIdx m' i := by
  induction m with
  | nil => simp [lookupIdx]
  | cons kv rest ih =>
    obtain ⟨k, w⟩ := kv
    by_cases hik : i = k
    · simp [lookupIdx, hik] at h
    · simp only [lookupIdx, if_neg hik, List.cons_append] at h ⊢
      exact ih h

theorem register_stable {m : List (ℕ × ℕ)} {i v : ℕ} (j : ℕ)
    (h : lookupIdx m i = some v) : lookupIdx (registerIndex m j) i = some v := by
  unfold registerIndex
  split
  · exact h
  · exact lookupIdx_append_left h

theorem register_self {m : List (ℕ × ℕ)} (i : ℕ) :
    (lookupIdx (registerIndex m i) i).isSome := by
  unfold registerIndex
  rcases hl : lookupIdx m i with _ | v
  · simp only [hl, Option.isSome_none, Bool.false_eq_true, if_false]
    rw [lookupIdx_append_none hl]
    simp [lookupIdx]
  · simp [hl]

theorem goodMap_register {m : List (ℕ × ℕ)} (i : ℕ) (hg : goodMap m) :
    goodMap (registerIndex m i) := by
  obtain ⟨hkeys, hvals⟩ := hg
  unfold registerIndex
  rcases hl : lookupIdx m i with _ | v
  · simp only [hl, Option.isSome_none, Bool.false_eq_true, if_false]
    constructor
    · rw [List.map_append]
      simp only [List.map_cons, List.map_nil]
      rw [List.nodup_append]
      refine ⟨hkeys, List.nodup_singleton _, ?_⟩
      intro a ha hb
      simp only [List.mem_singleton] at hb
      subst hb
      exact (lookupIdx_eq_none.mp hl) ha
    · rw [List.map_append, List.length_append]
      simp [hvals, List.range_succ]
  · simp only [hl, Option.isSome_some, if_true]
    exact ⟨hkeys, hvals⟩

theorem resolveList_cons (i : ℕ) (rest : List ℕ) (m : List (ℕ × ℕ)) :
    resolveList (i :: rest) m =
      ((resolveList rest (registerIndex m i)).1,
        (lookupIdx (registerIndex m i) i).getD 0 ::
          (resolveList rest (registerIndex m i)).2) := by
  simp [resolveList]

theorem resolveList_stable {is : List ℕ} {m : List (ℕ × ℕ)} {i v : ℕ}
    (h : lookupIdx m i = some v) : lookupIdx (resolveList is m).1 i = some v := by
  induction is generalizing m with
  | nil => simpa [resolveList] using h
  | cons j rest ih =>
    rw [resolveList_cons]
    exact ih (register_stable j h)

theorem goodMap_resolveList {is : List ℕ} {m : List (ℕ × ℕ)} (hg : goodMap m) :
    goodMap (resolveList is m).1 := by
  induction is generalizing m with
  | nil => simpa [resolveList] using hg
  | cons j rest ih =>
    rw [resolveList_cons]
    exact ih (goodMap_register j hg)

theorem mem_keys_register {m : List (ℕ × ℕ)} {i : ℕ} (j : ℕ) :
    i ∈ (registerIndex m j).map Prod.fst ↔ i ∈ m.map Prod.fst ∨ i = j := by
  unfold registerIndex
  rcases hl : lookupIdx m j with _ | v
  · simp only [hl, Option.isSome_none, Bool.false_eq_true, if_false]
    simp
  · have hj : j ∈ m.map Prod.fst := lookupIdx_isSome.mp (by simp [hl])
    simp only [hl, Option.isSome_some, if_true]
    constructor
    · exact Or.inl
    · rintro (h | rfl)
      · exact h
      · exact hj

theorem mem_keys_resolveList {is : List ℕ} {m : List (ℕ × ℕ)} {i : ℕ} :
    i ∈ (resolveList is m).1.map Prod.fst ↔ i ∈ m.map Prod.fst ∨ i ∈ is := by
  induction is generalizing m with
  | nil => simp [resolveList]
  | cons j rest ih =>
    rw [resolveList_cons]
    simp only [ih, mem_keys_register, List.mem_cons]
    tauto

theorem resolveList_snd {is : List ℕ} {m : List (ℕ × ℕ)} :
    (resolveList is m).2 =
      is.map (fun i => (lookupIdx (resolveList is m).1 i).getD 0) := by
  induction is generalizing m with
  | nil => simp [resolveList]
  | cons j rest ih =>
    rw [resolveList_cons]
    simp only [List.map_cons, List.cons.injEq]
    constructor
    · rcases hl : lookupIdx (registerIndex m j) j with _ | v
      · have := register_self (m := m) j
        simp [hl] at this
      · rw [resolveList_stable hl]
    · rw [ih]

theorem resolveList_append (a b : List ℕ) (m : List (ℕ × ℕ)) :
    (resolveList (a ++ b) m).1 = (resolveList b (resolveList a m).1).1 := by
  induction a generalizing m with
  | nil => simp [resolveList]
  | cons j rest ih =>
    rw [List.cons_append, resolveList_cons, resolveList_cons, ih]

theorem buildTopology_ok {faces : List (List ℕ)} (m : List (ℕ × ℕ))
    (h3 : ∀ f ∈ faces, f.length = 3) :
    buildTopology faces m =
      .ok ((resolveList (flat faces) m).1,
        faces.map (fun f => f.map fun i =>
          (lookupIdx (resolveList (flat faces) m).1 i).getD 0)) := by
  induction faces generalizing m with
  | nil => simp [buildTopology, flat, resolveList]
  | cons f fs ih =>
    have hf : f.length = 3 := h3 f (by simp)
    have hfs : ∀ g ∈ fs, g.length = 3 := fun g hg => h3 g (by simp [hg])
    have hflat : flat (f :: fs) = f ++ flat fs := rfl
    simp only [buildTopology, if_pos hf, ih (resolveList f m).1 hfs, hflat,
      resolveList_append, List.map_cons, List.cons.injEq]
    rw [resolveList_snd]
    have hmaps : List.map (fun i => (lookupIdx (resolveList f m).1 i).getD 0) f
        = List.map
            (fun i => (lookupIdx (resolveList (flat fs) (resolveList f m).1).1 i).getD 0)
            f := by
      refine List.map_congr_left fun i hi => ?_
      have hsome : (lookupIdx (resolveList f m).1 i).isSome := by
        rw [lookupIdx_isSome, mem_keys_resolveList]
        exact Or.inr hi
      rcases hl : lookupIdx (resolveList f m).1 i with _ | v
      · simp [hl] at hsome
      · rw [resolveList_stable hl]
    rw [hmaps]

/-! ### General lemmas about the frame builder and the pipeline -/

theorem clpf_c2 (pl : Hyperplane) (c : Vec3) :
    (computeLocalPlaneFrame pl c).c2 = pl.n.normalized := by
  simp only [computeLocalPlaneFrame]
  split <;> rfl

theorem clpf_t (pl : Hyperplane) (c : Vec3) :
    (computeLocalPlaneFrame pl c).t = pl.projection c := by
  simp only [computeLocalPlaneFrame]
  split <;> rfl

theorem normalized_of_norm_one {v : Vec3} (h : v.norm = 1) : v.normalized = v := by
  ext <;> simp [Vec3.normalized, h]

theorem buildTopology_err {good : List (List ℕ)} {bad : List ℕ}
    (rest : List (List ℕ)) (m : List (ℕ × ℕ)) (hg : ∀ f ∈ good, f.length = 3)
    (hb : bad.length ≠ 3) :
    buildTopology (good ++ bad :: rest) m = .err .nonTriangularFace := by
  induction good generalizing m with
  | nil => simp [buildTopology, hb]
  | cons f fs ih =>
    have hf : f.length = 3 := hg f (by simp)
    have hfs : ∀ g ∈ fs, g.length = 3 := fun g hgmem => hg g (by simp [hgmem])
    rw [List.cons_append]
    simp only [buildTopology, if_pos hf, ih _ hfs]

theorem cos_half_pos : 0 < Real.cos (0.5 : ℝ) := by
  apply Real.cos_pos_of_mem_Ioo
  constructor
  · have := Real.pi_gt_three
    norm_num
    linarith
  · have := Real.pi_gt_three
    norm_num
    linarith

theorem Vec3.neg_dot (a b : Vec3) : (-a).dot b = -(a.dot b) := by
  simp [Vec3.dot]
  ring

theorem projectVertex_assert {plane : Hyperplane} {F : Frame}
    {cloud : List MeshPoint} {m : List (ℕ × ℕ)} {h idx : ℕ} {pt : MeshPoint}
    (hrl : rlookup m h = some idx) (hnth : nth cloud idx = some pt)
    (hz : ¬ |(applyFrameInv F (plane.projection pt.pos)).z| < 0.001) :
    projectVertex plane F cloud m h = .error .assertFailed := by
  simp only [projectVertex, hrl, hnth, if_neg hz]

theorem projectLoop_ok_mem {plane : Hyperplane} {F : Frame}
    {cloud : List MeshPoint} {m : List (ℕ × ℕ)} :
    ∀ (loop : List ℕ) (out : List (ℝ × ℝ)),
      projectLoop plane F cloud m loop = .ok out →
      ∀ h ∈ loop, ∃ idx pt, rlookup m h = some idx ∧ nth cloud idx = some pt ∧
        |(applyFrameInv F (plane.projection pt.pos)).z| < 0.001 := by
  intro loop
  induction loop with
  | nil => intro out hok h hmem; simp at hmem
  | cons j rest ih =>
    intro out hok h hmem
    simp only [projectLoop] at hok
    rcases hpv : projectVertex plane F cloud m j with k | xy <;> rw [hpv] at hok
    · exact absurd hok (by simp)
    rcases hpl : projectLoop plane F cloud m rest with k | xs <;> rw [hpl] at hok
    · exact absurd hok (by simp)
    rcases List.mem_cons.mp hmem with rfl | hmem'
    · simp only [projectVertex] at hpv
      rcases hrl : rlookup m h with _ | idx
      · simp only [hrl] at hpv
        exact absurd hpv (by simp)
      · simp only [hrl] at hpv
        rcases hnth : nth cloud idx with _ | pt
        · simp only [hnth] at hpv
          exact absurd hpv (by simp)
        · simp only [hnth] at hpv
          by_cases hz : |(applyFrameInv F (plane.projection pt.pos)).z| < 0.001
          · exact ⟨idx, pt, rfl, hnth, hz⟩
          · rw [if_neg hz] at hpv
            exact absurd hpv (by simp)
    · exact ih xs hpl h hmem'

theorem ntf_run (pre : ImporterState) (input : MeshInput) (o : Oracle)
    (pl : Hyperplane) (good : List (List ℕ)) (bad : List ℕ)
    (rest : List (List ℕ)) (hcpc : computePlaneCoefficients input.cloud o.seg = .ok pl)
    (hpoly : input.polygons = good ++ bad :: rest)
    (hg : ∀ f ∈ good, f.length = 3) (hb : bad.length ≠ 3) :
    calculateBoundaryData pre input o
      = (⟨computeLocalPlaneFrame pl (centroidOf input.cloud), []⟩,
         .err .nonTriangularFace) := by
  simp only [calculateBoundaryData, hcpc, hpoly, buildTopology_err rest [] hg hb]

theorem insuffRun :
    calculateBoundaryData preW ⟨[mp0], []⟩ ⟨seg0, []⟩
      = (⟨idFrame, []⟩, .err .insufficientFit) := by
  norm_num [calculateBoundaryData, computePlaneCoefficients, seg0, mp0]

/-! ### The claims -/

/-- C1: the spec says `computeLocalPlaneFrame` always produces an
orthonormal right-handed rotation, and that in the `|normal · X| < 0.8`
branch the local X axis (the normalized projection of `origin + world_X`)
is perpendicular to the plane normal.  The code instead normalizes the
projected POINT, not the direction from the origin to it: on the
unit-normal plane `z = 1` (`planeW`, offset `-1`) with centroid `(0,0,1)`
the first rotation column has dot product `(√2)⁻¹ ≠ 0` with the plane
normal (= the third column), so the rotation part is not orthonormal and
the local X axis is not perpendicular to the normal. -/
theorem C1_frame_not_orthonormal :
    planeW.n.norm = 1 ∧
    (computeLocalPlaneFrame planeW ⟨0, 0, 1⟩).c0.dot planeW.n = (Real.sqrt 2)⁻¹ ∧
    (computeLocalPlaneFrame planeW ⟨0, 0, 1⟩).c0.dot
      ((computeLocalPlaneFrame planeW ⟨0, 0, 1⟩).c2) ≠ 0 := by
  refine ⟨norm_001, ?_, ?_⟩ <;> rw [frameW_eq] <;>
    simp [frameW, planeW, Vec3.dot, inv_ne_zero sqrt2_ne]

/-- C2 counterexample: the claim says a boundary vertex whose projected
local Z exceeds 0.001 in absolute value makes the call return the failure
as a recoverable error.  On the concrete plane-`z = 1` input the residual
of the first boundary vertex is `-1`, and the run dies on the
`ROS_ASSERT` (a process abort, modelled `crash`), not an error return. -/
theorem C2_counterexample :
    (calculateBoundaryData preW inputW oracleW).2 = .crash .assertFailed := by
  rw [crashRunW]

/-- C2 amended: a boundary vertex whose |local Z| is at least 0.001 makes
the projector fail the `ROS_ASSERT` — a process-fatal abort, not a
recoverable error return — and whenever the projection loop completes
normally, every vertex it emitted had |local Z| < 0.001 (no silent
truncation on the success path). -/
theorem C2_assert_aborts :
    (∀ (plane : Hyperplane) (F : Frame) (cloud : List MeshPoint)
       (m : List (ℕ × ℕ)) (h idx : ℕ) (pt : MeshPoint),
       rlookup m h = some idx → nth cloud idx = some pt →
       ¬ |(applyFrameInv F (plane.projection pt.pos)).z| < 0.001 →
       projectVertex plane F cloud m h = .error .assertFailed) ∧
    (∀ (plane : Hyperplane) (F : Frame) (cloud : List MeshPoint)
       (m : List (ℕ × ℕ)) (loop : List ℕ) (out : List (ℝ × ℝ)),
       projectLoop plane F cloud m loop = .ok out →
       ∀ h ∈ loop, ∃ idx pt, rlookup m h = some idx ∧ nth cloud idx = some pt ∧
         |(applyFrameInv F (plane.projection pt.pos)).z| < 0.001) :=
  ⟨fun _ _ _ _ _ _ _ hrl hnth hz => projectVertex_assert hrl hnth hz,
   fun _ _ _ _ loop out hok => projectLoop_ok_mem loop out hok⟩

theorem C2_assert_aborts_witness :
    projectVertex planeW frameW cloudW mapW 0 = .error .assertFailed := by
  refine C2_assert_aborts.1 planeW frameW cloudW mapW 0 0 ⟨⟨1, 0, 1⟩, ⟨0, 0, 1⟩⟩
    rfl rfl ?_
  rw [show (MeshPoint.mk ⟨1, 0, 1⟩ ⟨0, 0, 1⟩).pos = ⟨1, 0, 1⟩ from rfl, projW_x,
    invW_z]
  norm_num

/-- C3 counterexample: the claim says an empty point cloud or an empty face
list yields the recoverable error `EmptyInput`.  The code has no such
check: with a non-empty cloud and an empty face list the call SUCCEEDS
(returning an empty boundary set), and with an empty cloud it dies on the
out-of-range `cloud->points.at(0)` access instead of returning an error. -/
theorem C3_counterexample :
    (calculateBoundaryData preW ⟨cloudW, []⟩ ⟨segW, []⟩).2 = .ok () ∧
    (calculateBoundaryData preW ⟨[], [[0, 1, 2]]⟩ ⟨segW, [[0, 1, 2]]⟩).2
      = .crash .outOfRange := by
  constructor
  · rw [okRunW]
  · rfl

/-- C3 amended: there is no empty-input check.  An empty point cloud
crashes the call with an out-of-range access in the plane estimator
(process-fatal, not a returned error); an empty face list is not an error
at all — whenever plane estimation succeeds and the (empty) mesh reports
no boundary loops, the call returns success with an empty boundary set. -/
theorem C3_no_empty_input_check :
    (∀ (pre : ImporterState) (polys : List (List ℕ)) (o : Oracle),
       calculateBoundaryData pre ⟨[], polys⟩ o
         = (⟨idFrame, []⟩, .crash .outOfRange)) ∧
    (∀ (pre : ImporterState) (cloud : List MeshPoint) (o : Oracle)
       (pl : Hyperplane),
       computePlaneCoefficients cloud o.seg = .ok pl → o.loops = [] →
       (calculateBoundaryData pre ⟨cloud, []⟩ o).2 = .ok ()) := by
  constructor
  · intro pre polys o
    rfl
  · intro pre cloud o pl hcpc hloops
    obtain ⟨seg, loops⟩ := o
    simp only at hcpc hloops
    subst hloops
    simp only [calculateBoundaryData, hcpc, buildTopology, runLoops]

theorem C3_witness :
    calculateBoundaryData preW ⟨[], [[0, 1, 2]]⟩ ⟨segW, [[0, 1, 2]]⟩
      = (⟨idFrame, []⟩, .crash .outOfRange) ∧
    (calculateBoundaryData preW ⟨cloudW, []⟩ ⟨segW, []⟩).2 = .ok () :=
  ⟨C3_no_empty_input_check.1 preW [[0, 1, 2]] ⟨segW, [[0, 1, 2]]⟩,
   C3_no_empty_input_check.2 preW cloudW ⟨segW, []⟩ planeW cpcW rfl⟩

/-- C4: for a non-empty cloud the estimator returns the `InsufficientFit`
failure exactly when the reported inlier count divided by the total number
of cloud points is strictly below 0.9, and on that failure the whole
boundary-calculation call aborts with it (boundary list empty, frame left
at the identity it was reset to). -/
theorem C4_insufficient_fit_iff :
    ∀ (p0 : MeshPoint) (rest : List MeshPoint) (seg : SegResult),
      (computePlaneCoefficients (p0 :: rest) seg = .err .insufficientFit ↔
        (seg.inliers : ℝ) / (((p0 :: rest).length : ℕ) : ℝ) < 0.9) ∧
      (∀ (pre : ImporterState) (polys loops : List (List ℕ)),
        (seg.inliers : ℝ) / (((p0 :: rest).length : ℕ) : ℝ) < 0.9 →
        calculateBoundaryData pre ⟨p0 :: rest, polys⟩ ⟨seg, loops⟩
          = (⟨idFrame, []⟩, .err .insufficientFit)) := by
  intro p0 rest seg
  constructor
  · by_cases hc : (seg.inliers : ℝ) / (((p0 :: rest).length : ℕ) : ℝ) < 0.9
    · simp only [computePlaneCoefficients, if_pos hc]
      exact iff_of_true trivial hc
    · simp only [computePlaneCoefficients, if_neg hc]
      constructor
      · intro hbad
        split at hbad <;> simp_all
      · intro hbad
        exact absurd hbad hc
  · intro pre polys loops hlt
    simp only [calculateBoundaryData, computePlaneCoefficients, if_pos hlt]

theorem C4_witness :
    calculateBoundaryData preW ⟨[mp0], []⟩ ⟨seg0, []⟩
      = (⟨idFrame, []⟩, .err .insufficientFit) := by
  refine (C4_insufficient_fit_iff mp0 [] seg0).2 preW [] [] ?_
  norm_num [seg0]

/-- C5: given the inlier check passed, the estimator flips the fitted
normal exactly when its dot product with the seed normal (the first
point's normal) is negative — so the corrected normal's dot product with
the seed equals the absolute value of the raw one — then fails with
`NormalMismatch` exactly when the corrected dot product is below
`cos(0.5)`, and otherwise returns a plane whose normal is the corrected
one and satisfies dot(normal, seed) ≥ 0. -/
theorem C5_normal_orientation :
    ∀ (p0 : MeshPoint) (rest : List MeshPoint) (seg : SegResult),
      ¬ (seg.inliers : ℝ) / (((p0 :: rest).length : ℕ) : ℝ) < 0.9 →
      ((correctedNormal p0.nrm seg.n).dot p0.nrm = |seg.n.dot p0.nrm|) ∧
      (computePlaneCoefficients (p0 :: rest) seg = .err .normalMismatch ↔
        (correctedNormal p0.nrm seg.n).dot p0.nrm < Real.cos 0.5) ∧
      (∀ pl, computePlaneCoefficients (p0 :: rest) seg = .ok pl →
        pl.n = correctedNormal p0.nrm seg.n ∧ 0 ≤ pl.n.dot p0.nrm) := by
  intro p0 rest seg hratio
  refine ⟨?_, ?_, ?_⟩
  · unfold correctedNormal
    by_cases hneg : seg.n.dot p0.nrm < 0
    · rw [if_pos hneg, Vec3.neg_dot, abs_of_neg hneg]
    · rw [if_neg hneg, abs_of_nonneg (not_lt.mp hneg)]
  · simp only [computePlaneCoefficients, if_neg hratio]
    by_cases hc : (correctedNormal p0.nrm seg.n).dot p0.nrm < Real.cos 0.5
    · simp [hc]
    · simp [hc]
  · intro pl hok
    simp only [computePlaneCoefficients, if_neg hratio] at hok
    split at hok
    · exact absurd hok (by simp)
    · rename_i hc
      injection hok with hpl
      subst hpl
      exact ⟨rfl, le_trans cos_half_pos.le (not_lt.mp hc)⟩

theorem C5_witness :
    ((correctedNormal (Vec3.mk 0 0 1) ⟨0, 0, -1⟩).dot ⟨0, 0, 1⟩
        = |Vec3.dot ⟨0, 0, -1⟩ ⟨0, 0, 1⟩|) ∧
    (computePlaneCoefficients [⟨⟨0, 0, 0⟩, ⟨0, 0, 1⟩⟩] ⟨1, ⟨0, 0, -1⟩, 5⟩
        = .err .normalMismatch ↔
      (correctedNormal (Vec3.mk 0 0 1) ⟨0, 0, -1⟩).dot ⟨0, 0, 1⟩ < Real.cos 0.5) ∧
    (∀ pl, computePlaneCoefficients [⟨⟨0, 0, 0⟩, ⟨0, 0, 1⟩⟩] ⟨1, ⟨0, 0, -1⟩, 5⟩
        = .ok pl →
      pl.n = correctedNormal (Vec3.mk 0 0 1) ⟨0, 0, -1⟩ ∧
        0 ≤ pl.n.dot ⟨0, 0, 1⟩) := by
  exact C5_normal_orientation ⟨⟨0, 0, 0⟩, ⟨0, 0, 1⟩⟩ [] ⟨1, ⟨0, 0, -1⟩, 5⟩
    (by norm_num)

/-- C6 counterexample: the claim quantifies over EVERY input containing a
non-triangular face, but plane estimation runs first: with a quadrilateral
face present and a segmentation reporting zero inliers, the call aborts
with the earlier `InsufficientFit` failure, not `NonTriangularFace`. -/
theorem C6_counterexample :
    (calculateBoundaryData preW ⟨cloudW, [[0, 1, 2, 3]]⟩ ⟨⟨0, ⟨0, 0, 1⟩, -1⟩, []⟩).2
      = .err .insufficientFit ∧
    (Res.err .insufficientFit : Res Unit) ≠ .err .nonTriangularFace := by
  constructor
  · norm_num [calculateBoundaryData, computePlaneCoefficients, cloudW]
  · simp

/-- C6 amended: provided the plane-estimation stage succeeded, an input
whose face list contains a face without exactly 3 vertex references makes
the call abort at the first such face with `NonTriangularFace` (faces after
it are never examined), and the returned boundary collection is empty. -/
theorem C6_nontriangular_abort :
    ∀ (pre : ImporterState) (input : MeshInput) (o : Oracle) (pl : Hyperplane)
      (good : List (List ℕ)) (bad : List ℕ) (rest : List (List ℕ)),
      computePlaneCoefficients input.cloud o.seg = .ok pl →
      input.polygons = good ++ bad :: rest →
      (∀ f ∈ good, f.length = 3) → bad.length ≠ 3 →
      calculateBoundaryData pre input o
        = (⟨computeLocalPlaneFrame pl (centroidOf input.cloud), []⟩,
           .err .nonTriangularFace) :=
  fun pre input o pl good bad rest hcpc hpoly hg hb =>
    ntf_run pre input o pl good bad rest hcpc hpoly hg hb

theorem C6_witness :
    calculateBoundaryData preW ⟨cloudW, [[0, 1, 2, 3]]⟩ ⟨segW, []⟩
      = (⟨computeLocalPlaneFrame planeW (centroidOf cloudW), []⟩,
         .err .nonTriangularFace) :=
  C6_nontriangular_abort preW ⟨cloudW, [[0, 1, 2, 3]]⟩ ⟨segW, []⟩ planeW
    [] [0, 1, 2, 3] [] cpcW rfl (by simp) (by decide)

/-- C7: on every successful run the stored frame's translation is the
orthogonal projection of the cloud centroid onto the fitted plane, and the
third rotation column is the plane's unit normal (the sign being the one
the estimator chose). -/
theorem C7_frame_invariant :
    ∀ (pre : ImporterState) (input : MeshInput) (o : Oracle) (pl : Hyperplane)
      (s : ImporterState),
      computePlaneCoefficients input.cloud o.seg = .ok pl →
      pl.n.norm = 1 →
      calculateBoundaryData pre input o = (s, .ok ()) →
      s.frame.c2 = pl.n ∧ s.frame.t = pl.projection (centroidOf input.cloud) := by
  intro pre input o pl s hcpc hn hrun
  simp only [calculateBoundaryData, hcpc] at hrun
  split at hrun
  · injection hrun with h1 h2
    exact absurd h2 (by simp)
  · injection hrun with h1 h2
    exact absurd h2 (by simp)
  · split at hrun
    · injection hrun with h1 h2
      exact absurd h2 (by simp)
    · injection hrun with h1 h2
      rw [← h1]
      exact ⟨by rw [clpf_c2, normalized_of_norm_one hn], clpf_t _ _⟩

theorem C7_witness :
    frameW.c2 = planeW.n ∧ frameW.t = planeW.projection (centroidOf cloudW) :=
  C7_frame_invariant preW ⟨cloudW, []⟩ ⟨segW, []⟩ planeW ⟨frameW, []⟩ cpcW
    norm_001 okRunW

/-- C8: for every list of triangular faces, the mesh builder merges
duplicate cloud indices: it succeeds, the final bimap's left keys are
pairwise distinct while its right values are exactly the fresh handles
`0 … n-1` (a bijection between the distinct referenced indices and the
created vertices), an index is mapped iff some face references it, and
every face's occurrence of an index resolves to that index's unique handle
in the final map. -/
theorem C8_dedup_bijection :
    ∀ faces : List (List ℕ), (∀ f ∈ faces, f.length = 3) →
      buildTopology faces [] =
        .ok ((resolveList (flat faces) []).1,
          faces.map fun f => f.map fun i =>
            (lookupIdx (resolveList (flat faces) []).1 i).getD 0) ∧
      ((resolveList (flat faces) []).1.map Prod.fst).Nodup ∧
      (resolveList (flat faces) []).1.map Prod.snd
        = List.range (resolveList (flat faces) []).1.length ∧
      (∀ i : ℕ, i ∈ flat faces ↔
        i ∈ (resolveList (flat faces) []).1.map Prod.fst) := by
  intro faces h3
  have hg : goodMap (resolveList (flat faces) []).1 :=
    goodMap_resolveList ⟨by simp, by simp⟩
  refine ⟨buildTopology_ok [] h3, hg.1, hg.2, fun i => ?_⟩
  rw [mem_keys_resolveList]
  simp

theorem C8_witness :
    buildTopology [[0, 1, 2], [0, 2, 3]] [] =
      .ok ((resolveList (flat [[0, 1, 2], [0, 2, 3]]) []).1,
        [[0, 1, 2], [0, 2, 3]].map fun f => f.map fun i =>
          (lookupIdx (resolveList (flat [[0, 1, 2], [0, 2, 3]]) []).1 i).getD 0) ∧
    ((resolveList (flat [[0, 1, 2], [0, 2, 3]]) []).1.map Prod.fst).Nodup ∧
    (resolveList (flat [[0, 1, 2], [0, 2, 3]]) []).1.map Prod.snd
      = List.range (resolveList (flat [[0, 1, 2], [0, 2, 3]]) []).1.length ∧
    (∀ i : ℕ, i ∈ flat [[0, 1, 2], [0, 2, 3]] ↔
      i ∈ (resolveList (flat [[0, 1, 2], [0, 2, 3]]) []).1.map Prod.fst) :=
  C8_dedup_bijection [[0, 1, 2], [0, 2, 3]] (by decide)

/-- C9: whenever the projector emits a 2D point (x, y) for a boundary
vertex — so the vertex resolved to a cloud point, and its local Z residual
passed the 0.001 assert — mapping (x, y, 0) back through the plane frame
reproduces the vertex's projected-onto-plane 3D position to within 0.001,
provided the frame's linear part is invertible and its third column has
unit norm. -/
theorem C9_roundtrip :
    ∀ (plane : Hyperplane) (F : Frame) (cloud : List MeshPoint)
      (m : List (ℕ × ℕ)) (h idx : ℕ) (pt : MeshPoint) (x y : ℝ),
      F.c2.norm = 1 → det3 F.c0 F.c1 F.c2 ≠ 0 →
      rlookup m h = some idx → nth cloud idx = some pt →
      projectVertex plane F cloud m h = .ok (x, y) →
      (applyFrame F ⟨x, y, 0⟩ - plane.projection pt.pos).norm < 0.001 := by
  intro plane F cloud m h idx pt x y hc2 hD hrl hnth hpv
  simp only [projectVertex, hrl, hnth] at hpv
  by_cases hz : |(applyFrameInv F (plane.projection pt.pos)).z| < 0.001
  · rw [if_pos hz] at hpv
    injection hpv with hxy
    have hx : (applyFrameInv F (plane.projection pt.pos)).x = x :=
      congrArg Prod.fst hxy
    have hy : (applyFrameInv F (plane.projection pt.pos)).y = y :=
      congrArg Prod.snd hxy
    have hQ : applyFrame F (applyFrameInv F (plane.projection pt.pos))
        = plane.projection pt.pos := applyFrame_applyFrameInv F _ hD
    have key : ∀ (w q : Vec3), applyFrame F w = q →
        applyFrame F ⟨w.x, w.y, 0⟩ - q = (-w.z) • F.c2 := by
      intro w q hq
      rw [← hq]
      ext <;>
        simp only [applyFrame, Vec3.add_x, Vec3.add_y, Vec3.add_z, Vec3.sub_x,
          Vec3.sub_y, Vec3.sub_z, Vec3.smul_x, Vec3.smul_y, Vec3.smul_z,
          Vec3.mk_x, Vec3.mk_y, Vec3.mk_z] <;>
        ring
    have hdiff := key (applyFrameInv F (plane.projection pt.pos)) _ hQ
    rw [hx, hy] at hdiff
    rw [hdiff, Vec3.norm_smul, hc2, mul_one, abs_neg]
    exact hz
  · rw [if_neg hz] at hpv
    exact absurd hpv (by simp)

theorem C9_witness :
    (applyFrame idFrame ⟨1, 2, 0⟩ -
      Hyperplane.projection ⟨⟨0, 0, 1⟩, 0⟩
        ((MeshPoint.mk ⟨1, 2, 5⟩ ⟨0, 0, 1⟩).pos)).norm < 0.001 := by
  have hproj : Hyperplane.projection ⟨⟨0, 0, 1⟩, 0⟩ (⟨1, 2, 5⟩ : Vec3)
      = ⟨1, 2, 0⟩ := by
    ext <;> simp [Hyperplane.projection, Hyperplane.signedDist, Vec3.dot]
  have hinv : applyFrameInv idFrame ⟨1, 2, 0⟩ = ⟨1, 2, 0⟩ := by
    ext <;> simp [applyFrameInv, det3, idFrame] <;> norm_num
  have hnth : nth [(⟨⟨1, 2, 5⟩, ⟨0, 0, 1⟩⟩ : MeshPoint)] 0
      = some ⟨⟨1, 2, 5⟩, ⟨0, 0, 1⟩⟩ := rfl
  refine C9_roundtrip ⟨⟨0, 0, 1⟩, 0⟩ idFrame [⟨⟨1, 2, 5⟩, ⟨0, 0, 1⟩⟩] [(0, 0)]
    0 0 ⟨⟨1, 2, 5⟩, ⟨0, 0, 1⟩⟩ 1 2 norm_001 (by norm_num [det3, idFrame])
    rfl rfl ?_
  norm_num [projectVertex, rlookup, hnth, hproj, hinv]

/-- C10: failure is not atomic for the frame field: the boundary list is
empty after every error return, but when the failure happens after plane
estimation succeeded (a non-triangular face), the stored frame is the
newly computed plane frame, not the pre-call value — shown concretely on
a pre-call state with a non-empty boundary list and identity frame, where
the failing call leaves the new (non-identity) frame and an empty list. -/
theorem C10_failure_state :
    (∀ (pre : ImporterState) (input : MeshInput) (o : Oracle)
       (s : ImporterState) (e : Failure),
       calculateBoundaryData pre input o = (s, .err e) → s.boundaries = []) ∧
    (∀ (pre : ImporterState) (input : MeshInput) (o : Oracle) (pl : Hyperplane)
       (good : List (List ℕ)) (bad : List ℕ) (rest : List (List ℕ)),
       computePlaneCoefficients input.cloud o.seg = .ok pl →
       input.polygons = good ++ bad :: rest →
       (∀ f ∈ good, f.length = 3) → bad.length ≠ 3 →
       (calculateBoundaryData pre input o).1.frame
         = computeLocalPlaneFrame pl (centroidOf input.cloud)) ∧
    ((calculateBoundaryData pre0 ⟨cloudW, [[0, 1, 2, 3]]⟩ ⟨segW, []⟩).1.frame
        ≠ pre0.frame ∧
     (calculateBoundaryData pre0 ⟨cloudW, [[0, 1, 2, 3]]⟩ ⟨segW, []⟩).1.boundaries
        = [] ∧
     pre0.boundaries ≠ [] ∧
     (calculateBoundaryData pre0 ⟨cloudW, [[0, 1, 2, 3]]⟩ ⟨segW, []⟩).2
        = .err .nonTriangularFace) := by
  have hrunX : calculateBoundaryData pre0 ⟨cloudW, [[0, 1, 2, 3]]⟩ ⟨segW, []⟩
      = (⟨frameW, []⟩, .err .nonTriangularFace) := by
    rw [ntf_run pre0 ⟨cloudW, [[0, 1, 2, 3]]⟩ ⟨segW, []⟩ planeW [] [0, 1, 2, 3]
      [] cpcW rfl (by simp) (by decide), centroidW, frameW_eq]
  refine ⟨?_, ?_, ?_⟩
  · intro pre input o s e heq
    simp only [calculateBoundaryData] at heq
    split at heq
    · injection heq with h1 h2
      exact absurd h2 (by simp)
    · injection heq with h1 h2
      rw [← h1]
    · split at heq
      · injection heq with h1 h2
        exact absurd h2 (by simp)
      · injection heq with h1 h2
        rw [← h1]
      · split at heq
        · injection heq with h1 h2
          exact absurd h2 (by simp)
        · injection heq with h1 h2
          exact absurd h2 (by simp)
  · intro pre input o pl good bad rest hcpc hpoly hg hb
    rw [ntf_run pre input o pl good bad rest hcpc hpoly hg hb]
  · refine ⟨?_, ?_, ?_, ?_⟩
    · rw [hrunX]
      intro hbad
      have := congrArg (fun F => F.t.z) hbad
      simp [frameW, pre0, idFrame] at this
    · rw [hrunX]
    · simp [pre0]
    · rw [hrunX]

theorem C10_witness :
    (⟨idFrame, ([] : List (List (ℝ × ℝ)))⟩ : ImporterState).boundaries = [] ∧
    (calculateBoundaryData preW ⟨cloudW, [[0, 1, 2, 3]]⟩ ⟨segW, []⟩).1.frame
      = computeLocalPlaneFrame planeW (centroidOf cloudW) :=
  ⟨C10_failure_state.1 preW ⟨[mp0], []⟩ ⟨seg0, []⟩ ⟨idFrame, []⟩
      .insufficientFit insuffRun,
   C10_failure_state.2.1 preW ⟨cloudW, [[0, 1, 2, 3]]⟩ ⟨segW, []⟩ planeW
      [] [0, 1, 2, 3] [] cpcW rfl (by simp) (by decide)⟩

end
